import Mathlib

/-!
Shallow embedding of the request-tracking core of mcrouter's client library
(src/mcrouter/lib/network/McClientRequestContext.h) and of the NullRoute
routing stub (src/unnamed/part_000).

The header under src/ declares the data model (the request states, the three
ordered collections, the identifier index, the retained parser initializers)
and documents each operation's contract; the implementation file
McClientRequestContext-inl.h is not among the sources, so the operation
bodies are modelled from the specification (each such definition's doc
comment starts with "Modelled from the spec:").  Machine values (ids, result
codes, reply payloads, parser-initializer function pointers) are modelled as
Nat; the fiber Baton is modelled as a Bool flag recording whether it was
posted.  All definitions are executable.
-/

namespace Mcrouter

/-- Request states, from McClientRequestContextBase::ReqState
(McClientRequestContext.h lines 60-67). -/
inductive ReqState where
  | NONE
  | PENDING_QUEUE
  | WRITE_QUEUE
  | WRITE_QUEUE_CANCELED
  | PENDING_REPLY_QUEUE
  | COMPLETE
deriving DecidableEq, Repr

/-- Reply value arriving from the network: a runtime type tag plus an opaque
payload.  Models the type-erased reply handed to
McClientRequestContextBase::reply, whose runtime type is compared against
the context's replyType_ (header lines 89 and 101-109). -/
structure Reply where
  rtype : Nat
  value : Nat
deriving DecidableEq, Repr

/-- Result-slot content: either a delivered reply value or an error code
(mc_res_t); both are opaque domain values. -/
inductive ReqResult where
  | value (v : Nat)
  | error (e : Nat)
deriving DecidableEq, Repr

/-- One request context (McClientRequestContextBase): the request id, the
statically known reply type tag (replyType_), the queue-membership state
(state_), the typed result slot (replyStorage_), the wait/wake handle
(baton_, modelled as a posted flag) and the parser-initializer callback
(initializer_, modelled as an opaque code). -/
structure Ctx where
  id : Nat
  replyType : Nat
  initializer : Nat
  state : ReqState := ReqState.NONE
  replyStorage : Option ReqResult := none
  batonPosted : Bool := false
deriving DecidableEq, Repr

/-- Modelled from the spec: McClientRequestContextBase::reply (body in the
missing -inl.h; the header's contract at lines 101-109 reads "return false
iff the reply type didn't match with expected").  Typecheck the incoming
reply against replyType_; on mismatch return false leaving the context
unchanged, on match fulfill the result slot, move to COMPLETE and post the
baton. -/
def Ctx.reply (c : Ctx) (r : Reply) : Bool × Ctx :=
  if r.rtype = c.replyType then
    (true, { c with replyStorage := some (ReqResult.value r.value),
                    state := ReqState.COMPLETE,
                    batonPosted := true })
  else
    (false, c)

/-- Modelled from the spec: McClientRequestContextBase::replyError (body in
the missing -inl.h; spec section 4.1), failing the context with the given
error result through the same single-fulfillment path (result slot written,
state moved to COMPLETE, baton posted). -/
def Ctx.replyError (c : Ctx) (e : Nat) : Ctx :=
  { c with replyStorage := some (ReqResult.error e),
           state := ReqState.COMPLETE,
           batonPosted := true }

/-- Error code with which the queue fails a context whose reply failed the
type check (spec section 7: such a request is failed; the concrete mc_res_t
value is an opaque domain constant). -/
def mcResTypeMismatchError : Nat := 1

/-- Modelled from the spec: delivery of a type-checked reply to a context
already removed from its collection (spec sections 4.2 and 7): a
type-matched reply fulfills the slot with the value, a mismatch fails the
context with an error code.  Either way the context completes exactly
once. -/
def fulfillReply (c : Ctx) (r : Reply) : Ctx :=
  if (c.reply r).1 then (c.reply r).2
  else ((c.reply r).2).replyError mcResTypeMismatchError

/-- The context queue (McClientRequestContextQueue, header lines 140-261):
the protocol flag (outOfOrder_), the three ordered collections
(pendingQueue_, writeQueue_, pendingReplyQueue_), the identifier index
(idMap_, modelled as the list of indexed ids), and the retained parser
initializers of removed requests (timedOutInitializers_, an id-less FIFO of
bare initializers, exactly as the header declares it at lines 236-238:
std::queue of InitializerFuncPtr).  The completed field is a modelling
device: it
collects, in completion order, the contexts the queue has fulfilled and
handed back to their owners (the queue itself drops all links at COMPLETE,
spec section 3 Ownership). -/
structure Queue where
  outOfOrder : Bool
  pendingQueue : List Ctx := []
  writeQueue : List Ctx := []
  pendingReplyQueue : List Ctx := []
  idMap : List Nat := []
  timedOutInitializers : List Nat := []
  completed : List Ctx := []
deriving DecidableEq, Repr

/-- The queue constructor (header line 142): the protocol mode is fixed by
the single boolean argument; every collection starts empty. -/
def Queue.create (outOfOrder : Bool) : Queue :=
  { outOfOrder := outOfOrder }

/-- Find the first context with the given id in a collection and remove it,
returning the context and the remaining collection in order. -/
def extractById (id : Nat) : List Ctx → Option (Ctx × List Ctx)
  | [] => none
  | c :: rest =>
    if c.id = id then some (c, rest)
    else
      match extractById id rest with
      | some (x, rest') => some (x, c :: rest')
      | none => none

/-- Modelled from the spec: getPendingRequestCount (spec section 4.2), the
size of the pending collection. -/
def Queue.getPendingRequestCount (q : Queue) : Nat := q.pendingQueue.length

/-- Modelled from the spec: getInflightRequestCount (spec section 4.2), the
size of writing plus awaiting-reply. -/
def Queue.getInflightRequestCount (q : Queue) : Nat :=
  q.writeQueue.length + q.pendingReplyQueue.length

/-- Modelled from the spec: getFirstId (spec section 4.2), the id of the
oldest pending context; the caller must ensure one exists, modelled with
Option. -/
def Queue.getFirstId (q : Queue) : Option Nat :=
  q.pendingQueue.head?.map Ctx.id

/-- Modelled from the spec: markAsPending (spec section 4.2): NONE
transitions to PENDING_QUEUE, the context is appended to the pending
collection, and the id is inserted into the identifier index when out of
order; a context not in NONE is a programming-contract violation, modelled
as none. -/
def Queue.markAsPending (q : Queue) (c : Ctx) : Option Queue :=
  if c.state = ReqState.NONE then
    some { q with
           pendingQueue :=
             q.pendingQueue ++ [{ c with state := ReqState.PENDING_QUEUE }],
           idMap := if q.outOfOrder then q.idMap ++ [c.id] else q.idMap }
  else
    none

/-- Modelled from the spec: markNextAsSending (spec section 4.2): pop the
oldest pending context, PENDING_QUEUE transitions to WRITE_QUEUE, append to
the writing collection; none when the pending collection is empty
(precondition violation). -/
def Queue.markNextAsSending (q : Queue) : Option (Ctx × Queue) :=
  match q.pendingQueue with
  | [] => none
  | c :: rest =>
    some ({ c with state := ReqState.WRITE_QUEUE },
          { q with pendingQueue := rest,
                   writeQueue :=
                     q.writeQueue ++ [{ c with state := ReqState.WRITE_QUEUE }] })

/-- Modelled from the spec: markNextAsSent (spec section 4.2; header lines
186-195): pop the oldest writing context.  A WRITE_QUEUE_CANCELED context is
fully removed: dropped from the identifier index, its parser initializer
moved into the retained side buffer (the id-less FIFO the header declares),
and it is returned for
the caller to finalize as an error.  Otherwise WRITE_QUEUE transitions to
PENDING_REPLY_QUEUE and the context is appended to awaiting-reply. -/
def Queue.markNextAsSent (q : Queue) : Option (Ctx × Queue) :=
  match q.writeQueue with
  | [] => none
  | c :: rest =>
    if c.state = ReqState.WRITE_QUEUE_CANCELED then
      some (c, { q with
                 writeQueue := rest,
                 idMap := q.idMap.filter (fun i => i != c.id),
                 timedOutInitializers :=
                   q.timedOutInitializers ++ [c.initializer] })
    else
      some ({ c with state := ReqState.PENDING_REPLY_QUEUE },
            { q with
              writeQueue := rest,
              pendingReplyQueue :=
                q.pendingReplyQueue ++
                  [{ c with state := ReqState.PENDING_REPLY_QUEUE }] })

/-- Modelled from the spec: reply (spec section 4.2; header lines 197-204):
out of order, look the id up in the identifier index and fulfill the
matching awaiting-reply context; in order, the id is ignored and the oldest
awaiting-reply context is targeted.  A lookup miss (unknown,
already-resolved or canceled id) does nothing.  The fulfilled context is
removed from the awaiting-reply collection and the index and handed back
completed. -/
def Queue.reply (q : Queue) (id : Nat) (r : Reply) : Queue :=
  if q.outOfOrder then
    if id ∈ q.idMap then
      match extractById id q.pendingReplyQueue with
      | some (c, rest) =>
        { q with pendingReplyQueue := rest,
                 idMap := q.idMap.filter (fun i => i != id),
                 completed := q.completed ++ [fulfillReply c r] }
      | none => q
    else q
  else
    match q.pendingReplyQueue with
    | [] => q
    | c :: rest =>
      { q with pendingReplyQueue := rest,
               idMap := q.idMap.filter (fun i => i != c.id),
               completed := q.completed ++ [fulfillReply c r] }

/-- Modelled from the spec: cancellation triggered by timeout or external
cancel (spec sections 4.2 state machine and 5).  PENDING_QUEUE: immediate
removal (also from the index) and fulfillment with the error; WRITE_QUEUE:
deferred, the context is only marked WRITE_QUEUE_CANCELED (physical removal
happens at markNextAsSent); PENDING_REPLY_QUEUE: immediate removal and
fulfillment.  A context no longer in any collection has already completed,
so cancellation is a no-op. -/
def Queue.cancel (q : Queue) (id : Nat) (e : Nat) : Queue :=
  match extractById id q.pendingQueue with
  | some (c, rest) =>
    { q with pendingQueue := rest,
             idMap := q.idMap.filter (fun i => i != id),
             completed := q.completed ++ [c.replyError e] }
  | none =>
    if q.writeQueue.any (fun c => c.id == id) then
      { q with writeQueue :=
          q.writeQueue.map (fun c =>
            if c.id = id then { c with state := ReqState.WRITE_QUEUE_CANCELED }
            else c) }
    else
      match extractById id q.pendingReplyQueue with
      | some (c, rest) =>
        { q with pendingReplyQueue := rest,
                 idMap := q.idMap.filter (fun i => i != id),
                 completed := q.completed ++ [c.replyError e] }
      | none => q

/-- Modelled from the spec: failAllPending (spec section 4.2; header lines
160-164): remove every pending context from its collection and the index and
fulfill it with the error. -/
def Queue.failAllPending (q : Queue) (e : Nat) : Queue :=
  { q with
    pendingQueue := [],
    idMap := q.idMap.filter (fun i => q.pendingQueue.all (fun c => c.id != i)),
    completed := q.completed ++ q.pendingQueue.map (fun c => c.replyError e) }

/-- Modelled from the spec: failAllSent (spec section 4.2; header lines
154-158): remove every writing and awaiting-reply context from its
collection and the index and fulfill it with the error. -/
def Queue.failAllSent (q : Queue) (e : Nat) : Queue :=
  { q with
    writeQueue := [],
    pendingReplyQueue := [],
    idMap := q.idMap.filter
      (fun i => (q.writeQueue ++ q.pendingReplyQueue).all (fun c => c.id != i)),
    completed := q.completed ++
      (q.writeQueue ++ q.pendingReplyQueue).map (fun c => c.replyError e) }

/-- Contexts currently linked by the queue: pending, writing and
awaiting-reply, in that iteration order. -/
def Queue.activeContexts (q : Queue) : List Ctx :=
  q.pendingQueue ++ q.writeQueue ++ q.pendingReplyQueue

/-- Modelled from the spec: getParserInitializer (spec section 4.2; header
lines 206-216 and 236-238): out of order, return the initializer of the
active (still indexed) context with the given id; with no active match,
return the oldest retained timed-out initializer when the side buffer holds
one, none otherwise.  The retained side buffer the header declares is an
id-less FIFO (std::queue of InitializerFuncPtr), so the timed-out branch
cannot match by id; it can only hand out the oldest retained entry.  In
order, the id is ignored and the initializer of the head of the
awaiting-reply collection is returned. -/
def Queue.getParserInitializer (q : Queue) (reqId : Nat) : Option Nat :=
  if q.outOfOrder then
    match q.activeContexts.find? (fun c => c.id == reqId) with
    | some c => some c.initializer
    | none => q.timedOutInitializers.head?
  else
    q.pendingReplyQueue.head?.map Ctx.initializer

/-- Modelled from the spec: clearStoredInitializers (spec section 4.2): drop
the retained side buffer when the channel is torn down. -/
def Queue.clearStoredInitializers (q : Queue) : Queue :=
  { q with timedOutInitializers := [] }

/-- One invocation of a queue operation, for reasoning about whole
histories of the queue. -/
inductive QOp where
  | enq (c : Ctx)
  | send
  | sent
  | rep (id : Nat) (r : Reply)
  | cancel (id : Nat) (e : Nat)
  | failPending (e : Nat)
  | failSent (e : Nat)
  | clearInits
deriving DecidableEq, Repr

/-- Effect of one operation on the queue (contract violations and empty-pop
preconditions leave the queue unchanged, since the real code aborts
there). -/
def applyOp : QOp → Queue → Queue
  | QOp.enq c, q => (q.markAsPending c).getD q
  | QOp.send, q =>
    match q.markNextAsSending with
    | some p => p.2
    | none => q
  | QOp.sent, q =>
    match q.markNextAsSent with
    | some p => p.2
    | none => q
  | QOp.rep id r, q => q.reply id r
  | QOp.cancel id e, q => q.cancel id e
  | QOp.failPending e, q => q.failAllPending e
  | QOp.failSent e, q => q.failAllSent e
  | QOp.clearInits, q => q.clearStoredInitializers

/-- Contexts an operation introduces into the queue from outside. -/
def opInputs : QOp → List Ctx
  | QOp.enq c => [c]
  | _ => []

/-- Every context the model still knows about: the three live collections
plus the completed ones handed back to their owners. -/
def allCtxs (q : Queue) : List Ctx :=
  q.pendingQueue ++ q.writeQueue ++ q.pendingReplyQueue ++ q.completed

/-- Reachability in the state diagram of spec section 4.2:
NONE to PENDING_QUEUE to WRITE_QUEUE, then either PENDING_REPLY_QUEUE or
WRITE_QUEUE_CANCELED, and from any of these forward to COMPLETE; a state
never moves backward, and PENDING_REPLY_QUEUE and WRITE_QUEUE_CANCELED are
not reachable from each other. -/
def ReqState.le : ReqState → ReqState → Bool
  | ReqState.NONE, _ => true
  | _, ReqState.COMPLETE => true
  | ReqState.PENDING_QUEUE, ReqState.PENDING_QUEUE => true
  | ReqState.PENDING_QUEUE, ReqState.WRITE_QUEUE => true
  | ReqState.PENDING_QUEUE, ReqState.WRITE_QUEUE_CANCELED => true
  | ReqState.PENDING_QUEUE, ReqState.PENDING_REPLY_QUEUE => true
  | ReqState.WRITE_QUEUE, ReqState.WRITE_QUEUE => true
  | ReqState.WRITE_QUEUE, ReqState.WRITE_QUEUE_CANCELED => true
  | ReqState.WRITE_QUEUE, ReqState.PENDING_REPLY_QUEUE => true
  | ReqState.WRITE_QUEUE_CANCELED, ReqState.WRITE_QUEUE_CANCELED => true
  | ReqState.PENDING_REPLY_QUEUE, ReqState.PENDING_REPLY_QUEUE => true
  | _, _ => false

/-- One queue step respects the per-context state diagram: every context
known after the step descends from a context known before it (or handed in
by the operation) with the same id and a state that only moved forward along
the diagram. -/
def stepOK (inputs : List Ctx) (q q' : Queue) : Prop :=
  ∀ c' ∈ allCtxs q', ∃ c ∈ allCtxs q ++ inputs,
    c.id = c'.id ∧ ReqState.le c.state c'.state = true

/-- Queue well-formedness: each collection holds only contexts in the
matching state (spec section 3 invariants). -/
def Queue.WF (q : Queue) : Prop :=
  (∀ c ∈ q.pendingQueue, c.state = ReqState.PENDING_QUEUE) ∧
  (∀ c ∈ q.writeQueue,
    c.state = ReqState.WRITE_QUEUE ∨ c.state = ReqState.WRITE_QUEUE_CANCELED) ∧
  (∀ c ∈ q.pendingReplyQueue, c.state = ReqState.PENDING_REPLY_QUEUE) ∧
  (∀ c ∈ q.completed, c.state = ReqState.COMPLETE)

/-- Embedding of NullRoute::route (src/unnamed/part_000, lines 39-46): the
returned reply is Reply(DefaultReply, Operation()), a value fixed by the
operation and request types alone; the request contents, the operation value
and the routing context are all unused, and the embedding is a pure
function.  The defaultReply argument stands for the reply the expression
Reply(DefaultReply, Operation()) constructs for this instantiation. -/
def NullRoute.route {Request Operation ContextPtr ReplyTy : Type}
    (defaultReply : ReplyTy) (req : Request) (op : Operation)
    (ctx : ContextPtr) : ReplyTy :=
  defaultReply

/-- Embedding of NullRoute::couldRouteTo (src/unnamed/part_000, lines 32-37):
always the empty list. -/
def NullRoute.couldRouteTo {Request Operation ContextPtr Handle : Type}
    (req : Request) (op : Operation) (ctx : ContextPtr) : List Handle :=
  []

/-- Embedding of NullRoute::routeName (src/unnamed/part_000). -/
def NullRoute.routeName : String := "null"

/-- Fold a batch of arriving replies (id and value) into the queue, in wire
arrival order. -/
def replyAll (q : Queue) (rs : List (Nat × Reply)) : Queue :=
  rs.foldl (fun q p => q.reply p.1 p.2) q

/-- Concrete sample context awaiting its reply, used by witness theorems. -/
def ctxA : Ctx :=
  { id := 10, replyType := 1, initializer := 100,
    state := ReqState.PENDING_REPLY_QUEUE }

/-- Concrete sample context awaiting its reply, used by witness theorems. -/
def ctxB : Ctx :=
  { id := 11, replyType := 2, initializer := 101,
    state := ReqState.PENDING_REPLY_QUEUE }

/-- Concrete sample pending context, used by witness theorems. -/
def ctxP : Ctx :=
  { id := 12, replyType := 1, initializer := 102,
    state := ReqState.PENDING_QUEUE }

/-- Concrete sample context being written, used by witness theorems. -/
def ctxW : Ctx :=
  { id := 13, replyType := 1, initializer := 103,
    state := ReqState.WRITE_QUEUE }

/-- Concrete sample context whose write was canceled, used by witness
theorems. -/
def ctxC : Ctx :=
  { id := 15, replyType := 1, initializer := 105,
    state := ReqState.WRITE_QUEUE_CANCELED }

/-- Concrete sample freshly constructed context, used by witness theorems. -/
def ctxN : Ctx := { id := 14, replyType := 1, initializer := 104 }

/-- Concrete sample in-order queue with two contexts awaiting replies. -/
def sampleInOrder : Queue :=
  { outOfOrder := false, pendingReplyQueue := [ctxA, ctxB] }

/-- Concrete sample out-of-order queue with one pending, one writing and two
awaiting-reply contexts, all indexed. -/
def sampleOutOfOrder : Queue :=
  { outOfOrder := true, pendingQueue := [ctxP], writeQueue := [ctxW],
    pendingReplyQueue := [ctxA, ctxB], idMap := [12, 13, 10, 11] }

/-- Concrete sample out-of-order queue whose writing collection starts with a
canceled context. -/
def sampleCanceledWrite : Queue :=
  { outOfOrder := true, writeQueue := [ctxC, ctxW], idMap := [15, 13] }

theorem ReqState.le_rfl (s : ReqState) : ReqState.le s s = true := by
  cases s <;> rfl

theorem ReqState.le_final (s : ReqState) :
    ReqState.le s ReqState.COMPLETE = true := by
  cases s <;> rfl

theorem replyError_id (c : Ctx) (e : Nat) : (c.replyError e).id = c.id := rfl

theorem replyError_state (c : Ctx) (e : Nat) :
    (c.replyError e).state = ReqState.COMPLETE := rfl

theorem replyError_baton (c : Ctx) (e : Nat) :
    (c.replyError e).batonPosted = true := rfl

theorem replyError_storage (c : Ctx) (e : Nat) :
    (c.replyError e).replyStorage = some (ReqResult.error e) := rfl

theorem fulfillReply_id (c : Ctx) (r : Reply) : (fulfillReply c r).id = c.id := by
  by_cases h : r.rtype = c.replyType <;>
    simp [fulfillReply, Ctx.reply, Ctx.replyError, h]

theorem fulfillReply_state (c : Ctx) (r : Reply) :
    (fulfillReply c r).state = ReqState.COMPLETE := by
  by_cases h : r.rtype = c.replyType <;>
    simp [fulfillReply, Ctx.reply, Ctx.replyError, h]

theorem fulfillReply_baton (c : Ctx) (r : Reply) :
    (fulfillReply c r).batonPosted = true := by
  by_cases h : r.rtype = c.replyType <;>
    simp [fulfillReply, Ctx.reply, Ctx.replyError, h]

theorem fulfillReply_storage_isSome (c : Ctx) (r : Reply) :
    (fulfillReply c r).replyStorage.isSome = true := by
  by_cases h : r.rtype = c.replyType <;>
    simp [fulfillReply, Ctx.reply, Ctx.replyError, h]

theorem extractById_eq_none {id : Nat} {l : List Ctx}
    (h : ∀ x ∈ l, x.id ≠ id) : extractById id l = none := by
  induction l with
  | nil => rfl
  | cons c rest ih =>
    simp only [extractById]
    rw [if_neg (h c (by simp))]
    rw [ih (fun x hx => h x (by simp [hx]))]

theorem extractById_append_cons {id : Nat} {c : Ctx} (l₁ l₂ : List Ctx)
    (h₁ : ∀ x ∈ l₁, x.id ≠ id) (hc : c.id = id) :
    extractById id (l₁ ++ c :: l₂) = some (c, l₁ ++ l₂) := by
  induction l₁ with
  | nil => simp [extractById, hc]
  | cons a t ih =>
    simp only [List.cons_append, extractById]
    rw [if_neg (h₁ a (by simp))]
    simp only [List.append_eq]
    rw [ih (fun x hx => h₁ x (by simp [hx]))]

theorem extractById_mem {id : Nat} {l : List Ctx} {c : Ctx} {rest : List Ctx}
    (h : extractById id l = some (c, rest)) :
    c ∈ l ∧ c.id = id ∧ ∀ x ∈ rest, x ∈ l := by
  induction l generalizing rest with
  | nil => simp [extractById] at h
  | cons a t ih =>
    by_cases ha : a.id = id
    · simp only [extractById, if_pos ha, Option.some.injEq, Prod.mk.injEq] at h
      obtain ⟨hc, hrest⟩ := h
      subst hc
      subst hrest
      exact ⟨by simp, ha, fun x hx => by simp [hx]⟩
    · simp only [extractById, if_neg ha] at h
      cases hext : extractById id t with
      | none => rw [hext] at h; simp at h
      | some p =>
        obtain ⟨x, r'⟩ := p
        rw [hext] at h
        simp only [Option.some.injEq, Prod.mk.injEq] at h
        obtain ⟨hc, hrest⟩ := h
        subst hc
        subst hrest
        obtain ⟨hmem, hid, hsub⟩ := ih hext
        refine ⟨by simp [hmem], hid, ?_⟩
        intro y hy
        rcases List.mem_cons.mp hy with h1 | h2
        · simp [h1]
        · simp [hsub y h2]

theorem any_id_eq_false {l : List Ctx} {id : Nat} (h : ∀ x ∈ l, x.id ≠ id) :
    (l.any (fun c => c.id == id)) = false := by
  rw [← Bool.not_eq_true, List.any_eq_true]
  push_neg
  intro x hx
  simp [h x hx]

theorem find?_id_append_cons (l₁ l₂ : List Ctx) (c : Ctx) (id : Nat)
    (h₁ : ∀ x ∈ l₁, x.id ≠ id) (hc : c.id = id) :
    (l₁ ++ c :: l₂).find? (fun x => x.id == id) = some c := by
  induction l₁ with
  | nil => simp [List.find?, hc]
  | cons a t ih =>
    have ha : (a.id == id) = false := by simp [h₁ a (by simp)]
    simp only [List.cons_append, List.find?, ha]
    exact ih (fun x hx => h₁ x (by simp [hx]))

theorem mem_filter_ne_self (l : List Nat) (id : Nat) :
    id ∉ l.filter (fun i => i != id) := by
  simp [List.mem_filter]

theorem not_mem_filter_of (l : List Nat) (p : Nat → Bool) (x : Nat)
    (h : x ∉ l) : x ∉ l.filter p :=
  fun hm => h (List.mem_filter.mp hm).1

theorem not_mem_filter_all (l : List Nat) (cs : List Ctx) (c : Ctx)
    (hc : c ∈ cs) :
    c.id ∉ l.filter (fun i => cs.all (fun x => x.id != i)) := by
  intro hmem
  have hall := (List.mem_filter.mp hmem).2
  rw [List.all_eq_true] at hall
  have h2 := hall c hc
  simp at h2

theorem applyOp_outOfOrder (op : QOp) (q : Queue) :
    (applyOp op q).outOfOrder = q.outOfOrder := by
  cases op with
  | enq c =>
    by_cases h : c.state = ReqState.NONE <;>
      simp [applyOp, Queue.markAsPending, h]
  | send =>
    cases hp : q.pendingQueue <;> simp [applyOp, Queue.markNextAsSending, hp]
  | sent =>
    cases hw : q.writeQueue with
    | nil => simp [applyOp, Queue.markNextAsSent, hw]
    | cons a t =>
      by_cases ha : a.state = ReqState.WRITE_QUEUE_CANCELED <;>
        simp [applyOp, Queue.markNextAsSent, hw, ha]
  | rep id r =>
    by_cases h : q.outOfOrder
    · by_cases hm : id ∈ q.idMap
      · cases hext : extractById id q.pendingReplyQueue with
        | none => simp [applyOp, Queue.reply, h, hm, hext]
        | some p =>
          obtain ⟨c, rest⟩ := p
          simp [applyOp, Queue.reply, h, hm, hext]
      · simp [applyOp, Queue.reply, h, hm]
    · cases hp : q.pendingReplyQueue with
      | nil => simp [applyOp, Queue.reply, h, hp]
      | cons c t => simp [applyOp, Queue.reply, h, hp]
  | cancel id e =>
    cases hext : extractById id q.pendingQueue with
    | some p =>
      obtain ⟨c, rest⟩ := p
      simp [applyOp, Queue.cancel, hext]
    | none =>
      by_cases hw : q.writeQueue.any (fun c => c.id == id) = true
      · simp [applyOp, Queue.cancel, hext, hw]
      · cases hext2 : extractById id q.pendingReplyQueue with
        | some p =>
          obtain ⟨c, rest⟩ := p
          simp [applyOp, Queue.cancel, hext, hw, hext2]
        | none => simp [applyOp, Queue.cancel, hext, hw, hext2]
  | failPending e => simp [applyOp, Queue.failAllPending]
  | failSent e => simp [applyOp, Queue.failAllSent]
  | clearInits => simp [applyOp, Queue.clearStoredInitializers]

theorem foldl_outOfOrder (ops : List QOp) (q : Queue) :
    (ops.foldl (fun q op => applyOp op q) q).outOfOrder = q.outOfOrder := by
  induction ops generalizing q with
  | nil => rfl
  | cons op rest ih =>
    rw [List.foldl_cons, ih (applyOp op q), applyOp_outOfOrder]

theorem reply_inOrder_id_irrelevant (q : Queue) (h : q.outOfOrder = false)
    (id id' : Nat) (r : Reply) : q.reply id r = q.reply id' r := by
  simp [Queue.reply, h]

theorem reply_outOfOrder_field (q : Queue) (id : Nat) (r : Reply) :
    (q.reply id r).outOfOrder = q.outOfOrder :=
  applyOp_outOfOrder (QOp.rep id r) q

theorem replyAll_fifo (rs : List (Nat × Reply)) (q : Queue)
    (h : q.outOfOrder = false) :
    (replyAll q rs).completed.map Ctx.id =
      q.completed.map Ctx.id ++
        ((q.pendingReplyQueue.map Ctx.id).take rs.length) := by
  induction rs generalizing q with
  | nil => simp [replyAll]
  | cons p rest ih =>
    rw [replyAll, List.foldl_cons]
    have hfold :
        rest.foldl (fun q p => q.reply p.1 p.2) (q.reply p.1 p.2)
          = replyAll (q.reply p.1 p.2) rest := rfl
    rw [hfold]
    have hout : (q.reply p.1 p.2).outOfOrder = false := by
      rw [reply_outOfOrder_field, h]
    rw [ih (q.reply p.1 p.2) hout]
    cases hp : q.pendingReplyQueue with
    | nil =>
      have hq : q.reply p.1 p.2 = q := by simp [Queue.reply, h, hp]
      simp [hq, hp]
    | cons c t =>
      have hq : (q.reply p.1 p.2).completed
          = q.completed ++ [fulfillReply c p.2] := by
        simp [Queue.reply, h, hp]
      have hq2 : (q.reply p.1 p.2).pendingReplyQueue = t := by
        simp [Queue.reply, h, hp]
      rw [hq, hq2]
      simp [fulfillReply_id, List.take_succ_cons]

/-- C5: McClientRequestContextBase::reply returns false and leaves the
context entirely unchanged (result slot not written, state unmodified) when
the incoming reply's runtime type does not match the context's statically
known reply type, and returns true fulfilling the result slot precisely when
the types match. -/
theorem claim_C5 (c : Ctx) (r : Reply) :
    ((c.reply r).1 = true ↔ r.rtype = c.replyType) ∧
    (r.rtype ≠ c.replyType → (c.reply r).2 = c) ∧
    (r.rtype = c.replyType →
      ((c.reply r).2).replyStorage = some (ReqResult.value r.value) ∧
      ((c.reply r).2).state = ReqState.COMPLETE) := by
  by_cases h : r.rtype = c.replyType <;> simp [Ctx.reply, h]

/-- Witness for C5: a mismatched reply (type tag 2 against expected 1) is
rejected without touching the context. -/
theorem claim_C5_witness :
    ((ctxA.reply { rtype := 2, value := 7 }).1 = true ↔
      (2 : Nat) = ctxA.replyType) ∧
    ((2 : Nat) ≠ ctxA.replyType →
      (ctxA.reply { rtype := 2, value := 7 }).2 = ctxA) ∧
    ((2 : Nat) = ctxA.replyType →
      ((ctxA.reply { rtype := 2, value := 7 }).2).replyStorage
          = some (ReqResult.value 7) ∧
      ((ctxA.reply { rtype := 2, value := 7 }).2).state
          = ReqState.COMPLETE) :=
  claim_C5 ctxA { rtype := 2, value := 7 }

/-- C10: NullRoute::route returns the default reply (the value that
Reply(DefaultReply, Operation()) constructs for the operation and request
types), independent of the request's contents and of the routing context; as
a pure function of its arguments it has no side effects. -/
theorem claim_C10 {Request Operation ContextPtr ReplyTy Handle : Type}
    (defaultReply : ReplyTy) (req req' : Request) (op op' : Operation)
    (ctx ctx' : ContextPtr) :
    NullRoute.route defaultReply req op ctx = defaultReply ∧
    NullRoute.route defaultReply req op ctx
      = NullRoute.route defaultReply req' op' ctx' ∧
    NullRoute.couldRouteTo req op ctx = ([] : List Handle) :=
  ⟨rfl, rfl, rfl⟩

/-- C9: the queue's protocol mode is the constructor's single boolean
argument and no operation of any history ever changes it, so every reply and
getParserInitializer call branches on the mode chosen at construction. -/
theorem claim_C9 (b : Bool) (ops : List QOp) :
    (Queue.create b).outOfOrder = b ∧
    (∀ q : Queue,
      (ops.foldl (fun q op => applyOp op q) q).outOfOrder = q.outOfOrder) :=
  ⟨rfl, fun q => foldl_outOfOrder ops q⟩

/-- C2: under the in-order protocol the reply operation ignores its id
argument and always targets the oldest awaiting-reply context, so a sequence
of arriving replies resolves contexts strictly in submission (FIFO) order
regardless of the ids the replies carry. -/
theorem claim_C2 (q : Queue) (h : q.outOfOrder = false) (id id' : Nat)
    (r : Reply) (rs : List (Nat × Reply)) :
    q.reply id r = q.reply id' r ∧
    (∀ c rest, q.pendingReplyQueue = c :: rest →
      (q.reply id r).pendingReplyQueue = rest ∧
      ∃ c', (q.reply id r).completed = q.completed ++ [c'] ∧ c'.id = c.id ∧
        c'.state = ReqState.COMPLETE) ∧
    (replyAll q rs).completed.map Ctx.id =
      q.completed.map Ctx.id ++
        ((q.pendingReplyQueue.map Ctx.id).take rs.length) := by
  refine ⟨reply_inOrder_id_irrelevant q h id id' r, ?_, replyAll_fifo rs q h⟩
  intro c rest hp
  refine ⟨by simp [Queue.reply, h, hp], fulfillReply c r, ?_,
    fulfillReply_id c r, fulfillReply_state c r⟩
  simp [Queue.reply, h, hp]

/-- Witness for C2: the concrete in-order queue, a reply delivered with two
different ids, and a batch of two replies resolving contexts 10 then 11 in
FIFO order. -/
theorem claim_C2_witness :
    sampleInOrder.outOfOrder = false ∧
    (sampleInOrder.reply 5 { rtype := 1, value := 3 }
        = sampleInOrder.reply 9 { rtype := 1, value := 3 } ∧
      (∀ c rest, sampleInOrder.pendingReplyQueue = c :: rest →
        (sampleInOrder.reply 5 { rtype := 1, value := 3 }).pendingReplyQueue
            = rest ∧
        ∃ c', (sampleInOrder.reply 5 { rtype := 1, value := 3 }).completed
              = sampleInOrder.completed ++ [c'] ∧ c'.id = c.id ∧
          c'.state = ReqState.COMPLETE) ∧
      (replyAll sampleInOrder
          [(11, { rtype := 1, value := 3 }),
           (10, { rtype := 2, value := 4 })]).completed.map Ctx.id =
        sampleInOrder.completed.map Ctx.id ++
          ((sampleInOrder.pendingReplyQueue.map Ctx.id).take 2)) :=
  ⟨by decide, claim_C2 sampleInOrder (by decide) 5 9 { rtype := 1, value := 3 }
    [(11, { rtype := 1, value := 3 }), (10, { rtype := 2, value := 4 })]⟩

/-- C3: under the out-of-order protocol a reply fulfills exactly the
awaiting-reply context whose identifier equals the reply's id, found via the
identifier index, and a reply whose id matches no awaiting context (unknown,
already resolved or canceled) is a no-op leaving every collection, the index
and the request counts unchanged. -/
theorem claim_C3 (q : Queue) (id : Nat) (r : Reply)
    (h : q.outOfOrder = true) :
    ((∀ x ∈ q.pendingReplyQueue, x.id ≠ id) → q.reply id r = q) ∧
    (∀ c l₁ l₂, q.pendingReplyQueue = l₁ ++ c :: l₂ → c.id = id →
      (∀ x ∈ l₁, x.id ≠ id) → id ∈ q.idMap →
      (q.reply id r).pendingQueue = q.pendingQueue ∧
      (q.reply id r).writeQueue = q.writeQueue ∧
      (q.reply id r).pendingReplyQueue = l₁ ++ l₂ ∧
      id ∉ (q.reply id r).idMap ∧
      ∃ c', (q.reply id r).completed = q.completed ++ [c'] ∧ c'.id = id ∧
        c'.state = ReqState.COMPLETE) := by
  constructor
  · intro hmiss
    by_cases hm : id ∈ q.idMap <;>
      simp [Queue.reply, h, hm, extractById_eq_none hmiss]
  · intro c l₁ l₂ hp hc h₁ hm
    have hext : extractById id q.pendingReplyQueue = some (c, l₁ ++ l₂) := by
      rw [hp]; exact extractById_append_cons l₁ l₂ h₁ hc
    refine ⟨by simp [Queue.reply, h, hm, hext],
      by simp [Queue.reply, h, hm, hext],
      by simp [Queue.reply, h, hm, hext],
      by simp [Queue.reply, h, hm, hext, mem_filter_ne_self],
      fulfillReply c r, by simp [Queue.reply, h, hm, hext], ?_,
      fulfillReply_state c r⟩
    rw [fulfillReply_id, hc]

theorem mem_allCtxs_pending {q : Queue} {c : Ctx} (h : c ∈ q.pendingQueue) :
    c ∈ allCtxs q := by simp [allCtxs, h]

theorem mem_allCtxs_write {q : Queue} {c : Ctx} (h : c ∈ q.writeQueue) :
    c ∈ allCtxs q := by simp [allCtxs, h]

theorem mem_allCtxs_reply {q : Queue} {c : Ctx}
    (h : c ∈ q.pendingReplyQueue) : c ∈ allCtxs q := by simp [allCtxs, h]

theorem mem_allCtxs_completed {q : Queue} {c : Ctx} (h : c ∈ q.completed) :
    c ∈ allCtxs q := by simp [allCtxs, h]

theorem step_keep {ins : List Ctx} {q : Queue} {c' : Ctx}
    (h : c' ∈ allCtxs q) :
    ∃ x ∈ allCtxs q ++ ins, x.id = c'.id ∧
      ReqState.le x.state c'.state = true :=
  ⟨c', List.mem_append.mpr (Or.inl h), rfl, ReqState.le_rfl _⟩

theorem stepOK_self (ins : List Ctx) (q : Queue) : stepOK ins q q :=
  fun _ hc' => step_keep hc'

theorem mem_four {x : Ctx} {a b c d : List Ctx} (h : x ∈ a ++ b ++ c ++ d) :
    x ∈ a ∨ x ∈ b ∨ x ∈ c ∨ x ∈ d := by
  rcases List.mem_append.mp h with h1 | h4
  · rcases List.mem_append.mp h1 with h2 | h3
    · rcases List.mem_append.mp h2 with ha | hb
      · exact Or.inl ha
      · exact Or.inr (Or.inl hb)
    · exact Or.inr (Or.inr (Or.inl h3))
  · exact Or.inr (Or.inr (Or.inr h4))

theorem stepOK_applyOp (op : QOp) (q : Queue) (hWF : q.WF) :
    stepOK (opInputs op) q (applyOp op q) := by
  obtain ⟨hWFp, hWFw, hWFr, hWFc⟩ := hWF
  cases op with
  | enq c0 =>
    by_cases h : c0.state = ReqState.NONE
    · have hq' : applyOp (QOp.enq c0) q =
          { q with
            pendingQueue :=
              q.pendingQueue ++ [{ c0 with state := ReqState.PENDING_QUEUE }],
            idMap := if q.outOfOrder then q.idMap ++ [c0.id] else q.idMap } := by
        simp [applyOp, Queue.markAsPending, h]
      rw [hq']
      intro c' hc'
      simp only [allCtxs] at hc'
      rcases mem_four hc' with h1 | h2 | h3 | h4
      · rcases List.mem_append.mp h1 with hp | hnew
        · exact step_keep (mem_allCtxs_pending hp)
        · have heq := List.mem_singleton.mp hnew
          subst heq
          refine ⟨c0, List.mem_append.mpr (Or.inr (by simp [opInputs])),
            rfl, ?_⟩
          rw [h]; rfl
      · exact step_keep (mem_allCtxs_write h2)
      · exact step_keep (mem_allCtxs_reply h3)
      · exact step_keep (mem_allCtxs_completed h4)
    · have hq' : applyOp (QOp.enq c0) q = q := by
        simp [applyOp, Queue.markAsPending, h]
      rw [hq']
      exact stepOK_self _ _
  | send =>
    cases hp : q.pendingQueue with
    | nil =>
      have hq' : applyOp QOp.send q = q := by
        simp [applyOp, Queue.markNextAsSending, hp]
      rw [hq']
      exact stepOK_self _ _
    | cons a t =>
      have haMem : a ∈ q.pendingQueue := by rw [hp]; simp
      have hq' : applyOp QOp.send q =
          { q with pendingQueue := t,
                   writeQueue := q.writeQueue
                     ++ [{ a with state := ReqState.WRITE_QUEUE }] } := by
        simp [applyOp, Queue.markNextAsSending, hp]
      rw [hq']
      intro c' hc'
      simp only [allCtxs] at hc'
      rcases mem_four hc' with h1 | h2 | h3 | h4
      · exact step_keep (mem_allCtxs_pending (by rw [hp]; simp [h1]))
      · rcases List.mem_append.mp h2 with hw | hnew
        · exact step_keep (mem_allCtxs_write hw)
        · have heq := List.mem_singleton.mp hnew
          subst heq
          refine ⟨a, List.mem_append.mpr (Or.inl (mem_allCtxs_pending haMem)),
            rfl, ?_⟩
          rw [hWFp a haMem]; rfl
      · exact step_keep (mem_allCtxs_reply h3)
      · exact step_keep (mem_allCtxs_completed h4)
  | sent =>
    cases hw : q.writeQueue with
    | nil =>
      have hq' : applyOp QOp.sent q = q := by
        simp [applyOp, Queue.markNextAsSent, hw]
      rw [hq']
      exact stepOK_self _ _
    | cons a t =>
      have haMem : a ∈ q.writeQueue := by rw [hw]; simp
      by_cases ha : a.state = ReqState.WRITE_QUEUE_CANCELED
      · have hq' : applyOp QOp.sent q =
            { q with writeQueue := t,
                     idMap := q.idMap.filter (fun i => i != a.id),
                     timedOutInitializers :=
                       q.timedOutInitializers ++ [a.initializer] } := by
          simp [applyOp, Queue.markNextAsSent, hw, ha]
        rw [hq']
        intro c' hc'
        simp only [allCtxs] at hc'
        rcases mem_four hc' with h1 | h2 | h3 | h4
        · exact step_keep (mem_allCtxs_pending h1)
        · exact step_keep (mem_allCtxs_write (by rw [hw]; simp [h2]))
        · exact step_keep (mem_allCtxs_reply h3)
        · exact step_keep (mem_allCtxs_completed h4)
      · have hq' : applyOp QOp.sent q =
            { q with writeQueue := t,
                     pendingReplyQueue := q.pendingReplyQueue
                       ++ [{ a with state := ReqState.PENDING_REPLY_QUEUE }] } := by
          simp [applyOp, Queue.markNextAsSent, hw, ha]
        rw [hq']
        intro c' hc'
        simp only [allCtxs] at hc'
        rcases mem_four hc' with h1 | h2 | h3 | h4
        · exact step_keep (mem_allCtxs_pending h1)
        · exact step_keep (mem_allCtxs_write (by rw [hw]; simp [h2]))
        · rcases List.mem_append.mp h3 with hr | hnew
          · exact step_keep (mem_allCtxs_reply hr)
          · have heq := List.mem_singleton.mp hnew
            subst heq
            refine ⟨a, List.mem_append.mpr (Or.inl (mem_allCtxs_write haMem)),
              rfl, ?_⟩
            rcases hWFw a haMem with h1 | h2
            · rw [h1]; rfl
            · exact absurd h2 ha
        · exact step_keep (mem_allCtxs_completed h4)
  | rep id r =>
    by_cases h : q.outOfOrder
    · by_cases hm : id ∈ q.idMap
      · cases hext : extractById id q.pendingReplyQueue with
        | none =>
          have hq' : applyOp (QOp.rep id r) q = q := by
            simp [applyOp, Queue.reply, h, hm, hext]
          rw [hq']
          exact stepOK_self _ _
        | some p =>
          obtain ⟨c₁, rest⟩ := p
          obtain ⟨hc₁Mem, _, hsub⟩ := extractById_mem hext
          have hq' : applyOp (QOp.rep id r) q =
              { q with pendingReplyQueue := rest,
                       idMap := q.idMap.filter (fun i => i != id),
                       completed := q.completed ++ [fulfillReply c₁ r] } := by
            simp [applyOp, Queue.reply, h, hm, hext]
          rw [hq']
          intro c' hc'
          simp only [allCtxs] at hc'
          rcases mem_four hc' with h1 | h2 | h3 | h4
          · exact step_keep (mem_allCtxs_pending h1)
          · exact step_keep (mem_allCtxs_write h2)
          · exact step_keep (mem_allCtxs_reply (hsub c' h3))
          · rcases List.mem_append.mp h4 with hcc | hnew
            · exact step_keep (mem_allCtxs_completed hcc)
            · have heq := List.mem_singleton.mp hnew
              subst heq
              exact ⟨c₁,
                List.mem_append.mpr (Or.inl (mem_allCtxs_reply hc₁Mem)),
                (fulfillReply_id c₁ r).symm,
                by rw [fulfillReply_state]; exact ReqState.le_final _⟩
      · have hq' : applyOp (QOp.rep id r) q = q := by
          simp [applyOp, Queue.reply, h, hm]
        rw [hq']
        exact stepOK_self _ _
    · cases hpr : q.pendingReplyQueue with
      | nil =>
        have hq' : applyOp (QOp.rep id r) q = q := by
          simp [applyOp, Queue.reply, h, hpr]
        rw [hq']
        exact stepOK_self _ _
      | cons c₁ rest =>
        have hc₁Mem : c₁ ∈ q.pendingReplyQueue := by rw [hpr]; simp
        have hq' : applyOp (QOp.rep id r) q =
            { q with pendingReplyQueue := rest,
                     idMap := q.idMap.filter (fun i => i != c₁.id),
                     completed := q.completed ++ [fulfillReply c₁ r] } := by
          simp [applyOp, Queue.reply, h, hpr]
        rw [hq']
        intro c' hc'
        simp only [allCtxs] at hc'
        rcases mem_four hc' with h1 | h2 | h3 | h4
        · exact step_keep (mem_allCtxs_pending h1)
        · exact step_keep (mem_allCtxs_write h2)
        · exact step_keep (mem_allCtxs_reply (by rw [hpr]; simp [h3]))
        · rcases List.mem_append.mp h4 with hcc | hnew
          · exact step_keep (mem_allCtxs_completed hcc)
          · have heq := List.mem_singleton.mp hnew
            subst heq
            exact ⟨c₁,
              List.mem_append.mpr (Or.inl (mem_allCtxs_reply hc₁Mem)),
              (fulfillReply_id c₁ r).symm,
              by rw [fulfillReply_state]; exact ReqState.le_final _⟩
  | cancel id e =>
    cases hext : extractById id q.pendingQueue with
    | some p =>
      obtain ⟨c₁, rest⟩ := p
      obtain ⟨hc₁Mem, _, hsub⟩ := extractById_mem hext
      have hq' : applyOp (QOp.cancel id e) q =
          { q with pendingQueue := rest,
                   idMap := q.idMap.filter (fun i => i != id),
                   completed := q.completed ++ [c₁.replyError e] } := by
        simp [applyOp, Queue.cancel, hext]
      rw [hq']
      intro c' hc'
      simp only [allCtxs] at hc'
      rcases mem_four hc' with h1 | h2 | h3 | h4
      · exact step_keep (mem_allCtxs_pending (hsub c' h1))
      · exact step_keep (mem_allCtxs_write h2)
      · exact step_keep (mem_allCtxs_reply h3)
      · rcases List.mem_append.mp h4 with hcc | hnew
        · exact step_keep (mem_allCtxs_completed hcc)
        · have heq := List.mem_singleton.mp hnew
          subst heq
          exact ⟨c₁,
            List.mem_append.mpr (Or.inl (mem_allCtxs_pending hc₁Mem)),
            rfl, ReqState.le_final _⟩
    | none =>
      by_cases hwAny : q.writeQueue.any (fun c => c.id == id) = true
      · have hq' : applyOp (QOp.cancel id e) q =
            { q with writeQueue := q.writeQueue.map (fun c =>
                if c.id = id then
                  { c with state := ReqState.WRITE_QUEUE_CANCELED }
                else c) } := by
          simp [applyOp, Queue.cancel, hext, hwAny]
        rw [hq']
        intro c' hc'
        simp only [allCtxs] at hc'
        rcases mem_four hc' with h1 | h2 | h3 | h4
        · exact step_keep (mem_allCtxs_pending h1)
        · obtain ⟨x, hx, hfx⟩ := List.mem_map.mp h2
          subst hfx
          refine ⟨x, List.mem_append.mpr (Or.inl (mem_allCtxs_write hx)),
            ?_, ?_⟩
          · by_cases hxid : x.id = id <;> simp [hxid]
          · by_cases hxid : x.id = id
            · simp only [hxid, if_pos rfl]
              rcases hWFw x hx with h1 | h2
              · rw [h1]; rfl
              · rw [h2]; rfl
            · simp only [if_neg hxid]
              exact ReqState.le_rfl _
        · exact step_keep (mem_allCtxs_reply h3)
        · exact step_keep (mem_allCtxs_completed h4)
      · cases hext2 : extractById id q.pendingReplyQueue with
        | some p =>
          obtain ⟨c₁, rest⟩ := p
          obtain ⟨hc₁Mem, _, hsub⟩ := extractById_mem hext2
          have hq' : applyOp (QOp.cancel id e) q =
              { q with pendingReplyQueue := rest,
                       idMap := q.idMap.filter (fun i => i != id),
                       completed := q.completed ++ [c₁.replyError e] } := by
            simp [applyOp, Queue.cancel, hext, hwAny, hext2]
          rw [hq']
          intro c' hc'
          simp only [allCtxs] at hc'
          rcases mem_four hc' with h1 | h2 | h3 | h4
          · exact step_keep (mem_allCtxs_pending h1)
          · exact step_keep (mem_allCtxs_write h2)
          · exact step_keep (mem_allCtxs_reply (hsub c' h3))
          · rcases List.mem_append.mp h4 with hcc | hnew
            · exact step_keep (mem_allCtxs_completed hcc)
            · have heq := List.mem_singleton.mp hnew
              subst heq
              exact ⟨c₁,
                List.mem_append.mpr (Or.inl (mem_allCtxs_reply hc₁Mem)),
                rfl, ReqState.le_final _⟩
        | none =>
          have hq' : applyOp (QOp.cancel id e) q = q := by
            simp [applyOp, Queue.cancel, hext, hwAny, hext2]
          rw [hq']
          exact stepOK_self _ _
  | failPending e =>
    intro c' hc'
    simp only [applyOp, Queue.failAllPending, allCtxs] at hc'
    rcases mem_four hc' with h1 | h2 | h3 | h4
    · simp at h1
    · exact step_keep (mem_allCtxs_write h2)
    · exact step_keep (mem_allCtxs_reply h3)
    · rcases List.mem_append.mp h4 with hcc | hnew
      · exact step_keep (mem_allCtxs_completed hcc)
      · obtain ⟨x, hx, hfx⟩ := List.mem_map.mp hnew
        subst hfx
        exact ⟨x, List.mem_append.mpr (Or.inl (mem_allCtxs_pending hx)),
          rfl, ReqState.le_final _⟩
  | failSent e =>
    intro c' hc'
    simp only [applyOp, Queue.failAllSent, allCtxs] at hc'
    rcases mem_four hc' with h1 | h2 | h3 | h4
    · exact step_keep (mem_allCtxs_pending h1)
    · simp at h2
    · simp at h3
    · rcases List.mem_append.mp h4 with hcc | hnew
      · exact step_keep (mem_allCtxs_completed hcc)
      · obtain ⟨x, hx, hfx⟩ := List.mem_map.mp hnew
        subst hfx
        rcases List.mem_append.mp hx with hx1 | hx2
        · exact ⟨x, List.mem_append.mpr (Or.inl (mem_allCtxs_write hx1)),
            rfl, ReqState.le_final _⟩
        · exact ⟨x, List.mem_append.mpr (Or.inl (mem_allCtxs_reply hx2)),
            rfl, ReqState.le_final _⟩
  | clearInits =>
    intro c' hc'
    simp only [applyOp, Queue.clearStoredInitializers, allCtxs] at hc'
    rcases mem_four hc' with h1 | h2 | h3 | h4
    · exact step_keep (mem_allCtxs_pending h1)
    · exact step_keep (mem_allCtxs_write h2)
    · exact step_keep (mem_allCtxs_reply h3)
    · exact step_keep (mem_allCtxs_completed h4)

theorem WF_applyOp (op : QOp) (q : Queue) (hWF : q.WF) : (applyOp op q).WF := by
  obtain ⟨hWFp, hWFw, hWFr, hWFc⟩ := hWF
  cases op with
  | enq c0 =>
    by_cases h : c0.state = ReqState.NONE
    · have hq' : applyOp (QOp.enq c0) q =
          { q with
            pendingQueue :=
              q.pendingQueue ++ [{ c0 with state := ReqState.PENDING_QUEUE }],
            idMap := if q.outOfOrder then q.idMap ++ [c0.id] else q.idMap } := by
        simp [applyOp, Queue.markAsPending, h]
      rw [hq']
      refine ⟨?_, hWFw, hWFr, hWFc⟩
      intro x hx
      rcases List.mem_append.mp hx with hx1 | hx2
      · exact hWFp x hx1
      · rw [List.mem_singleton.mp hx2]
    · have hq' : applyOp (QOp.enq c0) q = q := by
        simp [applyOp, Queue.markAsPending, h]
      rw [hq']
      exact ⟨hWFp, hWFw, hWFr, hWFc⟩
  | send =>
    cases hp : q.pendingQueue with
    | nil =>
      have hq' : applyOp QOp.send q = q := by
        simp [applyOp, Queue.markNextAsSending, hp]
      rw [hq']
      exact ⟨hWFp, hWFw, hWFr, hWFc⟩
    | cons a t =>
      have hq' : applyOp QOp.send q =
          { q with pendingQueue := t,
                   writeQueue := q.writeQueue
                     ++ [{ a with state := ReqState.WRITE_QUEUE }] } := by
        simp [applyOp, Queue.markNextAsSending, hp]
      rw [hq']
      refine ⟨?_, ?_, hWFr, hWFc⟩
      · intro x hx
        exact hWFp x (by rw [hp]; simp [hx])
      · intro x hx
        rcases List.mem_append.mp hx with hx1 | hx2
        · exact hWFw x hx1
        · rw [List.mem_singleton.mp hx2]
          exact Or.inl rfl
  | sent =>
    cases hw : q.writeQueue with
    | nil =>
      have hq' : applyOp QOp.sent q = q := by
        simp [applyOp, Queue.markNextAsSent, hw]
      rw [hq']
      exact ⟨hWFp, hWFw, hWFr, hWFc⟩
    | cons a t =>
      by_cases ha : a.state = ReqState.WRITE_QUEUE_CANCELED
      · have hq' : applyOp QOp.sent q =
            { q with writeQueue := t,
                     idMap := q.idMap.filter (fun i => i != a.id),
                     timedOutInitializers :=
                       q.timedOutInitializers ++ [a.initializer] } := by
          simp [applyOp, Queue.markNextAsSent, hw, ha]
        rw [hq']
        refine ⟨hWFp, ?_, hWFr, hWFc⟩
        intro x hx
        exact hWFw x (by rw [hw]; simp [hx])
      · have hq' : applyOp QOp.sent q =
            { q with writeQueue := t,
                     pendingReplyQueue := q.pendingReplyQueue
                       ++ [{ a with state := ReqState.PENDING_REPLY_QUEUE }] } := by
          simp [applyOp, Queue.markNextAsSent, hw, ha]
        rw [hq']
        refine ⟨hWFp, ?_, ?_, hWFc⟩
        · intro x hx
          exact hWFw x (by rw [hw]; simp [hx])
        · intro x hx
          rcases List.mem_append.mp hx with hx1 | hx2
          · exact hWFr x hx1
          · rw [List.mem_singleton.mp hx2]
  | rep id r =>
    by_cases h : q.outOfOrder
    · by_cases hm : id ∈ q.idMap
      · cases hext : extractById id q.pendingReplyQueue with
        | none =>
          have hq' : applyOp (QOp.rep id r) q = q := by
            simp [applyOp, Queue.reply, h, hm, hext]
          rw [hq']
          exact ⟨hWFp, hWFw, hWFr, hWFc⟩
        | some p =>
          obtain ⟨c₁, rest⟩ := p
          obtain ⟨hc₁Mem, _, hsub⟩ := extractById_mem hext
          have hq' : applyOp (QOp.rep id r) q =
              { q with pendingReplyQueue := rest,
                       idMap := q.idMap.filter (fun i => i != id),
                       completed := q.completed ++ [fulfillReply c₁ r] } := by
            simp [applyOp, Queue.reply, h, hm, hext]
          rw [hq']
          refine ⟨hWFp, hWFw, ?_, ?_⟩
          · intro x hx
            exact hWFr x (hsub x hx)
          · intro x hx
            rcases List.mem_append.mp hx with hx1 | hx2
            · exact hWFc x hx1
            · rw [List.mem_singleton.mp hx2]
              exact fulfillReply_state c₁ r
      · have hq' : applyOp (QOp.rep id r) q = q := by
          simp [applyOp, Queue.reply, h, hm]
        rw [hq']
        exact ⟨hWFp, hWFw, hWFr, hWFc⟩
    · cases hpr : q.pendingReplyQueue with
      | nil =>
        have hq' : applyOp (QOp.rep id r) q = q := by
          simp [applyOp, Queue.reply, h, hpr]
        rw [hq']
        exact ⟨hWFp, hWFw, hWFr, hWFc⟩
      | cons c₁ rest =>
        have hq' : applyOp (QOp.rep id r) q =
            { q with pendingReplyQueue := rest,
                     idMap := q.idMap.filter (fun i => i != c₁.id),
                     completed := q.completed ++ [fulfillReply c₁ r] } := by
          simp [applyOp, Queue.reply, h, hpr]
        rw [hq']
        refine ⟨hWFp, hWFw, ?_, ?_⟩
        · intro x hx
          exact hWFr x (by rw [hpr]; simp [hx])
        · intro x hx
          rcases List.mem_append.mp hx with hx1 | hx2
          · exact hWFc x hx1
          · rw [List.mem_singleton.mp hx2]
            exact fulfillReply_state c₁ r
  | cancel id e =>
    cases hext : extractById id q.pendingQueue with
    | some p =>
      obtain ⟨c₁, rest⟩ := p
      obtain ⟨hc₁Mem, _, hsub⟩ := extractById_mem hext
      have hq' : applyOp (QOp.cancel id e) q =
          { q with pendingQueue := rest,
                   idMap := q.idMap.filter (fun i => i != id),
                   completed := q.completed ++ [c₁.replyError e] } := by
        simp [applyOp, Queue.cancel, hext]
      rw [hq']
      refine ⟨?_, hWFw, hWFr, ?_⟩
      · intro x hx
        exact hWFp x (hsub x hx)
      · intro x hx
        rcases List.mem_append.mp hx with hx1 | hx2
        · exact hWFc x hx1
        · rw [List.mem_singleton.mp hx2]
          exact replyError_state c₁ e
    | none =>
      by_cases hwAny : q.writeQueue.any (fun c => c.id == id) = true
      · have hq' : applyOp (QOp.cancel id e) q =
            { q with writeQueue := q.writeQueue.map (fun c =>
                if c.id = id then
                  { c with state := ReqState.WRITE_QUEUE_CANCELED }
                else c) } := by
          simp [applyOp, Queue.cancel, hext, hwAny]
        rw [hq']
        refine ⟨hWFp, ?_, hWFr, hWFc⟩
        intro x hx
        obtain ⟨y, hy, hfy⟩ := List.mem_map.mp hx
        subst hfy
        by_cases hyid : y.id = id
        · simp only [hyid, if_pos rfl]
          exact Or.inr rfl
        · simp only [if_neg hyid]
          exact hWFw y hy
      · cases hext2 : extractById id q.pendingReplyQueue with
        | some p =>
          obtain ⟨c₁, rest⟩ := p
          obtain ⟨hc₁Mem, _, hsub⟩ := extractById_mem hext2
          have hq' : applyOp (QOp.cancel id e) q =
              { q with pendingReplyQueue := rest,
                       idMap := q.idMap.filter (fun i => i != id),
                       completed := q.completed ++ [c₁.replyError e] } := by
            simp [applyOp, Queue.cancel, hext, hwAny, hext2]
          rw [hq']
          refine ⟨hWFp, hWFw, ?_, ?_⟩
          · intro x hx
            exact hWFr x (hsub x hx)
          · intro x hx
            rcases List.mem_append.mp hx with hx1 | hx2
            · exact hWFc x hx1
            · rw [List.mem_singleton.mp hx2]
              exact replyError_state c₁ e
        | none =>
          have hq' : applyOp (QOp.cancel id e) q = q := by
            simp [applyOp, Queue.cancel, hext, hwAny, hext2]
          rw [hq']
          exact ⟨hWFp, hWFw, hWFr, hWFc⟩
  | failPending e =>
    refine ⟨by simp [applyOp, Queue.failAllPending], hWFw, hWFr, ?_⟩
    intro x hx
    rcases List.mem_append.mp hx with hx1 | hx2
    · exact hWFc x hx1
    · obtain ⟨y, hy, hfy⟩ := List.mem_map.mp hx2
      subst hfy
      exact replyError_state y e
  | failSent e =>
    refine ⟨hWFp, by simp [applyOp, Queue.failAllSent],
      by simp [applyOp, Queue.failAllSent], ?_⟩
    intro x hx
    rcases List.mem_append.mp hx with hx1 | hx2
    · exact hWFc x hx1
    · obtain ⟨y, hy, hfy⟩ := List.mem_map.mp hx2
      subst hfy
      exact replyError_state y e
  | clearInits =>
    exact ⟨hWFp, hWFw, hWFr, hWFc⟩

/-- C7: a context's state evolves only forward along the transition diagram
NONE, PENDING_QUEUE, WRITE_QUEUE, then PENDING_REPLY_QUEUE or
WRITE_QUEUE_CANCELED, then COMPLETE, under every queue operation, which also
preserves the collection and state well-formedness; in particular
markAsPending transitions NONE to PENDING_QUEUE, appends to the pending
collection preserving submission order, inserts the id into the identifier
index exactly when the protocol is out of order, and signals a contract
violation (none) when the context is not in NONE. -/
theorem claim_C7 (op : QOp) (q : Queue) (c : Ctx) (hWF : q.WF) :
    stepOK (opInputs op) q (applyOp op q) ∧ (applyOp op q).WF ∧
    q.markAsPending c =
      (if c.state = ReqState.NONE then
        some { q with
               pendingQueue :=
                 q.pendingQueue ++ [{ c with state := ReqState.PENDING_QUEUE }],
               idMap := if q.outOfOrder then q.idMap ++ [c.id] else q.idMap }
       else none) :=
  ⟨stepOK_applyOp op q hWF, WF_applyOp op q hWF, rfl⟩

/-- Witness for C7: the concrete well-formed out-of-order queue, one send
step, and a freshly constructed context handed to markAsPending. -/
theorem claim_C7_witness :
    sampleOutOfOrder.WF ∧
    (stepOK (opInputs QOp.send) sampleOutOfOrder
        (applyOp QOp.send sampleOutOfOrder) ∧
      (applyOp QOp.send sampleOutOfOrder).WF ∧
      sampleOutOfOrder.markAsPending ctxN =
        (if ctxN.state = ReqState.NONE then
          some { sampleOutOfOrder with
                 pendingQueue := sampleOutOfOrder.pendingQueue
                   ++ [{ ctxN with state := ReqState.PENDING_QUEUE }],
                 idMap := if sampleOutOfOrder.outOfOrder then
                     sampleOutOfOrder.idMap ++ [ctxN.id]
                   else sampleOutOfOrder.idMap }
         else none)) :=
  ⟨by unfold Queue.WF; decide,
   claim_C7 QOp.send sampleOutOfOrder ctxN (by unfold Queue.WF; decide)⟩

/-- C1: fulfillment (writing the result slot and posting the baton) happens
at most once per context and exactly at the transition into COMPLETE: when a
reply and a cancellation race on the same awaiting-reply context, whichever
is processed first removes and fulfills the context, posting the wake signal
at that transition, and the loser's action (as well as any duplicate of the
winner's) is a no-op on the whole queue. -/
theorem claim_C1 (q : Queue) (c : Ctx) (l₂ : List Ctx) (r : Reply) (e : Nat)
    (h : q.outOfOrder = true)
    (hq : q.pendingReplyQueue = c :: l₂)
    (hl : ∀ x ∈ l₂, x.id ≠ c.id)
    (hp : ∀ x ∈ q.pendingQueue, x.id ≠ c.id)
    (hw : ∀ x ∈ q.writeQueue, x.id ≠ c.id)
    (hm : c.id ∈ q.idMap)
    (hb : c.batonPosted = false) :
    ((q.reply c.id r).cancel c.id e = q.reply c.id r) ∧
    ((q.cancel c.id e).reply c.id r = q.cancel c.id e) ∧
    ((q.reply c.id r).reply c.id r = q.reply c.id r) ∧
    ((q.cancel c.id e).cancel c.id e = q.cancel c.id e) ∧
    (∃ c₁, (q.reply c.id r).completed = q.completed ++ [c₁] ∧
      c₁.state = ReqState.COMPLETE ∧ c₁.batonPosted = true ∧
      c₁.replyStorage.isSome = true) ∧
    ((q.cancel c.id e).completed = q.completed ++ [c.replyError e] ∧
      (c.replyError e).state = ReqState.COMPLETE ∧
      (c.replyError e).batonPosted = true) := by
  have hext : extractById c.id q.pendingReplyQueue = some (c, l₂) := by
    rw [hq]; simp [extractById]
  have hextP : extractById c.id q.pendingQueue = none := extractById_eq_none hp
  have hanyW : q.writeQueue.any (fun x => x.id == c.id) = false :=
    any_id_eq_false hw
  have hextL : extractById c.id l₂ = none := extractById_eq_none hl
  have hrep : q.reply c.id r =
      { q with pendingReplyQueue := l₂,
               idMap := q.idMap.filter (fun i => i != c.id),
               completed := q.completed ++ [fulfillReply c r] } := by
    simp [Queue.reply, h, hm, hext]
  have hcan : q.cancel c.id e =
      { q with pendingReplyQueue := l₂,
               idMap := q.idMap.filter (fun i => i != c.id),
               completed := q.completed ++ [c.replyError e] } := by
    simp [Queue.cancel, hextP, hanyW, hext]
  have hnotmem : c.id ∉ q.idMap.filter (fun i => i != c.id) :=
    mem_filter_ne_self q.idMap c.id
  refine ⟨?_, ?_, ?_, ?_, ?_, ?_⟩
  · rw [hrep]; simp [Queue.cancel, hextP, hanyW, hextL]
  · rw [hcan]; simp [Queue.reply, h, hnotmem]
  · rw [hrep]; simp [Queue.reply, h, hnotmem]
  · rw [hcan]; simp [Queue.cancel, hextP, hanyW, hextL]
  · rw [hrep]
    exact ⟨fulfillReply c r, rfl, fulfillReply_state c r,
      fulfillReply_baton c r, fulfillReply_storage_isSome c r⟩
  · rw [hcan]
    exact ⟨rfl, rfl, rfl⟩

/-- Witness for C1: the concrete out-of-order queue, racing a reply and a
timeout cancellation on the awaiting-reply context with id 10. -/
theorem claim_C1_witness :
    (sampleOutOfOrder.outOfOrder = true ∧
      sampleOutOfOrder.pendingReplyQueue = ctxA :: [ctxB] ∧
      (∀ x ∈ [ctxB], x.id ≠ ctxA.id) ∧
      (∀ x ∈ sampleOutOfOrder.pendingQueue, x.id ≠ ctxA.id) ∧
      (∀ x ∈ sampleOutOfOrder.writeQueue, x.id ≠ ctxA.id) ∧
      ctxA.id ∈ sampleOutOfOrder.idMap ∧
      ctxA.batonPosted = false) ∧
    (((sampleOutOfOrder.reply ctxA.id { rtype := 1, value := 42 }).cancel
        ctxA.id 5
        = sampleOutOfOrder.reply ctxA.id { rtype := 1, value := 42 }) ∧
    ((sampleOutOfOrder.cancel ctxA.id 5).reply ctxA.id
        { rtype := 1, value := 42 }
        = sampleOutOfOrder.cancel ctxA.id 5) ∧
    ((sampleOutOfOrder.reply ctxA.id { rtype := 1, value := 42 }).reply
        ctxA.id { rtype := 1, value := 42 }
        = sampleOutOfOrder.reply ctxA.id { rtype := 1, value := 42 }) ∧
    ((sampleOutOfOrder.cancel ctxA.id 5).cancel ctxA.id 5
        = sampleOutOfOrder.cancel ctxA.id 5) ∧
    (∃ c₁, (sampleOutOfOrder.reply ctxA.id
          { rtype := 1, value := 42 }).completed
        = sampleOutOfOrder.completed ++ [c₁] ∧
      c₁.state = ReqState.COMPLETE ∧ c₁.batonPosted = true ∧
      c₁.replyStorage.isSome = true) ∧
    ((sampleOutOfOrder.cancel ctxA.id 5).completed
        = sampleOutOfOrder.completed ++ [ctxA.replyError 5] ∧
      (ctxA.replyError 5).state = ReqState.COMPLETE ∧
      (ctxA.replyError 5).batonPosted = true)) :=
  ⟨⟨by decide, by decide, by decide, by decide, by decide, by decide,
    by decide⟩,
   claim_C1 sampleOutOfOrder ctxA [ctxB] { rtype := 1, value := 42 } 5
     (by decide) (by decide) (by decide) (by decide) (by decide) (by decide)
     (by decide)⟩

/-- C4: markNextAsSent pops the oldest writing context and returns it; a
WRITE_QUEUE_CANCELED context is fully removed (dropped from the identifier
index, its parser initializer moved into the retained side buffer) and left
for the caller to finalize as an error, while any other context transitions
WRITE_QUEUE to PENDING_REPLY_QUEUE and is appended to the awaiting-reply
collection. -/
theorem claim_C4 (q : Queue) (c : Ctx) (rest : List Ctx)
    (h : q.writeQueue = c :: rest) :
    ∃ ret q', q.markNextAsSent = some (ret, q') ∧
      q'.writeQueue = rest ∧ q'.pendingQueue = q.pendingQueue ∧
      (c.state = ReqState.WRITE_QUEUE_CANCELED →
        ret = c ∧
        q'.idMap = q.idMap.filter (fun i => i != c.id) ∧
        c.id ∉ q'.idMap ∧
        q'.timedOutInitializers
          = q.timedOutInitializers ++ [c.initializer] ∧
        q'.pendingReplyQueue = q.pendingReplyQueue) ∧
      (c.state ≠ ReqState.WRITE_QUEUE_CANCELED →
        ret = { c with state := ReqState.PENDING_REPLY_QUEUE } ∧
        q'.pendingReplyQueue = q.pendingReplyQueue
          ++ [{ c with state := ReqState.PENDING_REPLY_QUEUE }] ∧
        q'.idMap = q.idMap ∧
        q'.timedOutInitializers = q.timedOutInitializers) := by
  by_cases hc : c.state = ReqState.WRITE_QUEUE_CANCELED
  · refine ⟨c,
      { q with writeQueue := rest,
               idMap := q.idMap.filter (fun i => i != c.id),
               timedOutInitializers :=
                 q.timedOutInitializers ++ [c.initializer] },
      ?_, rfl, rfl, fun _ => ⟨rfl, rfl, mem_filter_ne_self _ _, rfl, rfl⟩,
      fun hne => absurd hc hne⟩
    simp [Queue.markNextAsSent, h, hc]
  · refine ⟨{ c with state := ReqState.PENDING_REPLY_QUEUE },
      { q with writeQueue := rest,
               pendingReplyQueue := q.pendingReplyQueue
                 ++ [{ c with state := ReqState.PENDING_REPLY_QUEUE }] },
      ?_, rfl, rfl, fun hcc => absurd hcc hc,
      fun _ => ⟨rfl, rfl, rfl, rfl⟩⟩
    simp [Queue.markNextAsSent, h, hc]

/-- Witness for C4: in the concrete queue whose writing collection starts
with the canceled context 15, markNextAsSent removes it, drops id 15 from
the index and retains its initializer. -/
theorem claim_C4_witness :
    sampleCanceledWrite.writeQueue = ctxC :: [ctxW] ∧
    (∃ ret q', sampleCanceledWrite.markNextAsSent = some (ret, q') ∧
      q'.writeQueue = [ctxW] ∧
      q'.pendingQueue = sampleCanceledWrite.pendingQueue ∧
      (ctxC.state = ReqState.WRITE_QUEUE_CANCELED →
        ret = ctxC ∧
        q'.idMap = sampleCanceledWrite.idMap.filter (fun i => i != ctxC.id) ∧
        ctxC.id ∉ q'.idMap ∧
        q'.timedOutInitializers = sampleCanceledWrite.timedOutInitializers
          ++ [ctxC.initializer] ∧
        q'.pendingReplyQueue = sampleCanceledWrite.pendingReplyQueue) ∧
      (ctxC.state ≠ ReqState.WRITE_QUEUE_CANCELED →
        ret = { ctxC with state := ReqState.PENDING_REPLY_QUEUE } ∧
        q'.pendingReplyQueue = sampleCanceledWrite.pendingReplyQueue
          ++ [{ ctxC with state := ReqState.PENDING_REPLY_QUEUE }] ∧
        q'.idMap = sampleCanceledWrite.idMap ∧
        q'.timedOutInitializers
          = sampleCanceledWrite.timedOutInitializers)) :=
  ⟨by decide, claim_C4 sampleCanceledWrite ctxC [ctxW] (by decide)⟩

/-- C6: failAllPending fails exactly the contexts of the pending collection
and failAllSent exactly those of the writing and awaiting-reply collections;
each affected context is removed from its collection and the identifier
index and fulfilled with the given error, so after both calls both request
counts are zero and no affected context is left unfulfilled. -/
theorem claim_C6 (q : Queue) (e₁ e₂ : Nat) :
    ((q.failAllPending e₁).failAllSent e₂).getPendingRequestCount = 0 ∧
    ((q.failAllPending e₁).failAllSent e₂).getInflightRequestCount = 0 ∧
    ((q.failAllPending e₁).failAllSent e₂).completed =
      q.completed ++ q.pendingQueue.map (fun c => c.replyError e₁)
        ++ (q.writeQueue ++ q.pendingReplyQueue).map
            (fun c => c.replyError e₂) ∧
    (∀ c ∈ q.pendingQueue ++ q.writeQueue ++ q.pendingReplyQueue,
      c.id ∉ ((q.failAllPending e₁).failAllSent e₂).idMap) ∧
    (∀ c ∈ q.pendingQueue.map (fun c => c.replyError e₁)
        ++ (q.writeQueue ++ q.pendingReplyQueue).map
            (fun c => c.replyError e₂),
      c.state = ReqState.COMPLETE ∧ c.batonPosted = true ∧
        c.replyStorage.isSome = true) := by
  refine ⟨rfl, rfl, rfl, ?_, ?_⟩
  · intro c hc
    simp only [Queue.failAllPending, Queue.failAllSent]
    rcases List.mem_append.mp hc with hc1 | hc2
    · rcases List.mem_append.mp hc1 with hcp | hcw
      · exact not_mem_filter_of _ _ _ (not_mem_filter_all _ _ c hcp)
      · exact not_mem_filter_all _ _ c (List.mem_append.mpr (Or.inl hcw))
    · exact not_mem_filter_all _ _ c (List.mem_append.mpr (Or.inr hc2))
  · intro c hc
    rcases List.mem_append.mp hc with hc1 | hc2
    · obtain ⟨x, _, rfl⟩ := List.mem_map.mp hc1
      exact ⟨rfl, rfl, rfl⟩
    · obtain ⟨x, _, rfl⟩ := List.mem_map.mp hc2
      exact ⟨rfl, rfl, rfl⟩

/-- C8 counterexample: after markNextAsSent retires the canceled context
with id 15, the retained side buffer holds only that context's initializer;
no active context and no removed context ever had id 99, yet an out-of-order
lookup at id 99 returns that initializer instead of the null result the
claim requires for an unknown id. -/
theorem claim_C8_counterexample :
    (applyOp QOp.sent sampleCanceledWrite).outOfOrder = true ∧
    (applyOp QOp.sent sampleCanceledWrite).timedOutInitializers
      = [ctxC.initializer] ∧
    (∀ x ∈ (applyOp QOp.sent sampleCanceledWrite).activeContexts,
      x.id ≠ 99) ∧
    ctxC.id ≠ 99 ∧
    (applyOp QOp.sent sampleCanceledWrite).getParserInitializer 99
      = some ctxC.initializer := by
  decide

/-- C8 (amended): out of order, getParserInitializer returns the initializer
of the in-flight context whose identifier equals the argument; when no
in-flight context matches, it returns the oldest retained timed-out
initializer if the side buffer holds one (the buffer the header declares is
an id-less FIFO, so this branch is independent of the argument), and a null
result only when the side buffer is also empty; in order, the id argument is
ignored and the initializer of the head of the awaiting-reply collection is
returned. -/
theorem claim_C8 (q : Queue) (id : Nat) :
    (q.outOfOrder = true →
      (∀ c l₁ l₂, q.activeContexts = l₁ ++ c :: l₂ → (∀ x ∈ l₁, x.id ≠ id) →
        c.id = id → q.getParserInitializer id = some c.initializer) ∧
      ((∀ x ∈ q.activeContexts, x.id ≠ id) →
        (∀ i rest, q.timedOutInitializers = i :: rest →
          q.getParserInitializer id = some i) ∧
        (q.timedOutInitializers = [] →
          q.getParserInitializer id = none))) ∧
    (q.outOfOrder = false →
      (∀ id', q.getParserInitializer id = q.getParserInitializer id') ∧
      (∀ c rest, q.pendingReplyQueue = c :: rest →
        q.getParserInitializer id = some c.initializer)) := by
  constructor
  · intro hout
    constructor
    · intro c l₁ l₂ hact h₁ hc
      have hfind : q.activeContexts.find? (fun x => x.id == id) = some c := by
        rw [hact]; exact find?_id_append_cons l₁ l₂ c id h₁ hc
      simp [Queue.getParserInitializer, hout, hfind]
    · intro hmiss
      have hfind : q.activeContexts.find? (fun x => x.id == id) = none := by
        rw [List.find?_eq_none]
        intro x hx
        simp [hmiss x hx]
      constructor
      · intro i rest hto
        simp [Queue.getParserInitializer, hout, hfind, hto]
      · intro hto
        simp [Queue.getParserInitializer, hout, hfind, hto]
  · intro hout
    refine ⟨fun id' => by simp [Queue.getParserInitializer, hout], ?_⟩
    intro c rest hp
    simp [Queue.getParserInitializer, hout, hp]

/-- Witness for the amended C8, applied to the concrete out-of-order queue
at id 10. -/
theorem claim_C8_witness :
    (sampleOutOfOrder.outOfOrder = true →
      (∀ c l₁ l₂, sampleOutOfOrder.activeContexts = l₁ ++ c :: l₂ →
        (∀ x ∈ l₁, x.id ≠ 10) → c.id = 10 →
        sampleOutOfOrder.getParserInitializer 10 = some c.initializer) ∧
      ((∀ x ∈ sampleOutOfOrder.activeContexts, x.id ≠ 10) →
        (∀ i rest, sampleOutOfOrder.timedOutInitializers = i :: rest →
          sampleOutOfOrder.getParserInitializer 10 = some i) ∧
        (sampleOutOfOrder.timedOutInitializers = [] →
          sampleOutOfOrder.getParserInitializer 10 = none))) ∧
    (sampleOutOfOrder.outOfOrder = false →
      (∀ id', sampleOutOfOrder.getParserInitializer 10
        = sampleOutOfOrder.getParserInitializer id') ∧
      (∀ c rest, sampleOutOfOrder.pendingReplyQueue = c :: rest →
        sampleOutOfOrder.getParserInitializer 10 = some c.initializer)) :=
  claim_C8 sampleOutOfOrder 10

/-- Witness for C3: in the concrete out-of-order queue, a reply with unknown
id 99 is a no-op, and a reply with id 10 resolves exactly context 10. -/
theorem claim_C3_witness :
    sampleOutOfOrder.outOfOrder = true ∧
    (((∀ x ∈ sampleOutOfOrder.pendingReplyQueue, x.id ≠ 10) →
        sampleOutOfOrder.reply 10 { rtype := 1, value := 3 }
          = sampleOutOfOrder) ∧
      (∀ c l₁ l₂, sampleOutOfOrder.pendingReplyQueue = l₁ ++ c :: l₂ →
        c.id = 10 → (∀ x ∈ l₁, x.id ≠ 10) → 10 ∈ sampleOutOfOrder.idMap →
        (sampleOutOfOrder.reply 10 { rtype := 1, value := 3 }).pendingQueue
            = sampleOutOfOrder.pendingQueue ∧
        (sampleOutOfOrder.reply 10 { rtype := 1, value := 3 }).writeQueue
            = sampleOutOfOrder.writeQueue ∧
        (sampleOutOfOrder.reply 10
            { rtype := 1, value := 3 }).pendingReplyQueue = l₁ ++ l₂ ∧
        10 ∉ (sampleOutOfOrder.reply 10 { rtype := 1, value := 3 }).idMap ∧
        ∃ c', (sampleOutOfOrder.reply 10 { rtype := 1, value := 3 }).completed
              = sampleOutOfOrder.completed ++ [c'] ∧ c'.id = 10 ∧
          c'.state = ReqState.COMPLETE)) :=
  ⟨by decide, claim_C3 sampleOutOfOrder 10 { rtype := 1, value := 3 }
    (by decide)⟩

end Mcrouter
